import Mathlib

/-!
# Attempt lifecycle & penalty engine: a shallow embedding

This development embeds the attempt-lifecycle logic of the proctored-exam
backend (route handlers in `src/routes/exams.ts`, plus the older revision in
`src/routes/attempts.ts`) as executable Lean definitions, and proves or
refutes the specified properties about them.

Conventions of the embedding:
* JavaScript `Date` values are modelled as integers (milliseconds since epoch).
* JavaScript numbers that carry scores/points are modelled as rationals
  (all arithmetic performed on them in the source is exact on rationals);
  counters (lives) are modelled as integers.
* `null`/`undefined` become `Option.none`; JSON payload values become the
  inductive `JsVal`.
* Each route handler becomes a pure function from its inputs and the relevant
  database rows to the updated rows and the response, with `Except` for the
  error responses.
-/

namespace ExamProctor

/-- A JSON-ish value as it appears in request payloads and stored answer
content. `objAnswers xs` models an object of the shape
`\x7b answers: xs \x7d`; `objValue v tf` models the wrapped answer content
`\x7b value: v, teacherFeedback: tf \x7d` produced by `wrapAnswerContent`. -/
inductive JsVal where
  | null
  | str (s : String)
  | num (n : ℚ)
  | arr (xs : List JsVal)
  | objAnswers (xs : List JsVal)
  | objValue (v : JsVal) (teacherFeedback : Option String)

/-- Exam configuration row (the fields the lifecycle handlers read). -/
structure Exam where
  id : String
  lives : Option ℤ := some 3
  durationMin : Option ℤ := none
  durationMins : Option ℤ := none
  gradingMode : Option String := none
  startsAt : Option ℤ := none
  endsAt : Option ℤ := none
  maxScore : Option ℚ := none
deriving DecidableEq, Repr

/-- The `maxLives` value as every handler computes it:
`exam.lives != null ? Number(exam.lives) : 3`. -/
def Exam.maxLives (e : Exam) : ℤ :=
  match e.lives with
  | some l => l
  | none => 3

/-- A recorded event row (`prisma.event.create`): its `type` and `reason`. -/
structure EventRow where
  type : String
  reason : String
deriving DecidableEq, Repr

/-- The mutable fields of an `Attempt` row that the lifecycle handlers touch,
together with the attempt's event history (the `Event` rows that reference
it, in creation order). -/
structure AttemptState where
  status : String := "in_progress"
  startAt : Option ℤ := none
  endAt : Option ℤ := none
  livesUsed : ℤ := 0
  extraTimeSecs : ℤ := 0
  score : Option ℚ := none
  events : List EventRow := []
deriving DecidableEq, Repr

/-! ## Kernel-reducible string primitives

`String.trim`, `String.toLower`, `String.toUpper` and `String.toInt?` from
core are implemented on byte positions by well-founded recursion; we use
list-based equivalents of the JavaScript operations instead. -/

/-- JS `String.prototype.trim()`. -/
def jsTrim (s : String) : String :=
  String.mk (((s.data.dropWhile Char.isWhitespace).reverse.dropWhile
    Char.isWhitespace).reverse)

/-- JS `String.prototype.toLowerCase()` (ASCII, as exercised here). -/
def jsToLower (s : String) : String :=
  String.mk (s.data.map Char.toLower)

/-- JS `String.prototype.toUpperCase()` (ASCII, as exercised here). -/
def jsToUpper (s : String) : String :=
  String.mk (s.data.map Char.toUpper)

/-- Digits of a decimal literal. -/
def parseNatChars : List Char → Option ℕ
  | [] => none
  | l => l.foldl (fun acc c =>
      match acc with
      | none => none
      | some n => if c.isDigit then some (n * 10 + (c.toNat - 48)) else none)
      (some 0)

/-- Parse an optionally signed integer literal (the numeric strings the
handlers meet). -/
def jsToInt (s : String) : Option ℤ :=
  match s.data with
  | '-' :: rest => (parseNatChars rest).map (fun n => -(n : ℤ))
  | '+' :: rest => (parseNatChars rest).map (fun n => (n : ℤ))
  | l => (parseNatChars l).map (fun n => (n : ℤ))

/-! ## Violation-type normalization (POST /api/attempts/:id/antifraud) -/

/-- Is `c` one of the characters the regex class `[a-z0-9]` matches? -/
def isLowerAlnum (c : Char) : Bool :=
  ('a' ≤ c && c ≤ 'z') || ('0' ≤ c && c ≤ '9')

/-- Helper for `collapseRuns`: `inRun` records whether the previous character
was part of a non-alphanumeric run (already replaced by an underscore). -/
def collapseAux (inRun : Bool) : List Char → List Char
  | [] => []
  | c :: rest =>
    if isLowerAlnum c then c :: collapseAux false rest
    else if inRun then collapseAux true rest
    else '_' :: collapseAux true rest

/-- The effect of `replace(/[^a-z0-9]+/g, "_")` on a list of characters: every maximal run
of characters outside `[a-z0-9]` becomes a single underscore. -/
def collapseRuns (l : List Char) : List Char :=
  collapseAux false l

/-- The effect of `replace(/^_+|_+$/g, "")`: strip leading and trailing underscore runs. -/
def stripUnderscores (l : List Char) : List Char :=
  ((l.dropWhile (· == '_')).reverse.dropWhile (· == '_')).reverse

/-- Whether `needle` occurs as a contiguous substring (JS `String.includes`). -/
def containsSub (needle : List Char) : List Char → Bool
  | [] => needle.isEmpty
  | c :: rest => needle.isPrefixOf (c :: rest) || containsSub needle rest

/-- The normalization performed by `POST /api/attempts/:id/antifraud`:
trim + lowercase, merge any string containing both "fullscreen" and "exit"
into `fullscreen_exit`, collapse non-alphanumeric runs to `_`, strip
leading/trailing underscores, uppercase. -/
def normalizeAntifraudType (s : String) : String :=
  let raw := jsToLower (jsTrim s)
  let raw :=
    if containsSub "fullscreen".data raw.data && containsSub "exit".data raw.data then
      "fullscreen_exit"
    else raw
  String.mk (((stripUnderscores (collapseRuns raw.data)).map Char.toUpper))

/-- The allow-list `PENALTY_TYPES` of the antifraud handler: the normalized
tags that actually consume a life. -/
def PENALTY_TYPES : List String :=
  ["BLUR", "VISIBILITY_HIDDEN", "COPY", "CUT", "PASTE", "PRINT",
   "PRINTSCREEN", "FULLSCREEN_EXIT"]

/-- Does the antifraud handler treat (the normalization of) `ty` as a
life-consuming violation? -/
def penalizes (ty : String) : Bool :=
  normalizeAntifraudType ty ∈ PENALTY_TYPES

/-! ## POST /api/attempts/:id/antifraud -/

/-- Response body of the antifraud handler. -/
structure AntifraudResponse where
  remaining : ℤ
  used : ℤ
  maxLives : ℤ
  status : String
deriving DecidableEq, Repr

/-- The state transition and response of `POST /api/attempts/:id/antifraud`
(after the attempt and exam rows were found), at time `now`:
* normalize the type;
* if the normalized tag is in `PENALTY_TYPES`, `used = min(maxLives, used+1)`;
* `remaining = max(0, maxLives - used)`;
* if `remaining == 0` and status is not already "finished", set
  `status = "finished"` and `endAt = now`;
* always append an `ANTIFRAUD` event with the normalized tag. -/
def antifraudStep (exam : Exam) (now : ℤ) (st : AttemptState) (ty : String) :
    AttemptState × AntifraudResponse :=
  let normalized := normalizeAntifraudType ty
  let maxLives := exam.maxLives
  let used := st.livesUsed
  let used := if penalizes ty then min maxLives (used + 1) else used
  let remaining := max 0 (maxLives - used)
  let status := st.status
  let statusEnd :=
    if remaining = 0 ∧ status ≠ "finished" then ("finished", some now)
    else (status, st.endAt)
  let st' : AttemptState :=
    { st with
        livesUsed := used
        status := statusEnd.1
        endAt := statusEnd.2
        events := st.events ++ [⟨"ANTIFRAUD", normalized⟩] }
  (st', ⟨remaining, used, maxLives, statusEnd.1⟩)

/-- The full antifraud handler, including the `MISSING_TYPE` guard
(`if (!type) return 400`). -/
def antifraudHandler (exam : Exam) (now : ℤ) (st : AttemptState) (ty : String) :
    Except String (AttemptState × AntifraudResponse) :=
  if ty = "" then .error "MISSING_TYPE"
  else .ok (antifraudStep exam now st ty)

/-! ## PATCH /api/attempts/:id/lives -/

/-- The teacher's life adjustment operation. -/
inductive LivesOp where
  | increment
  | decrement
deriving DecidableEq, Repr

/-- The state transition of `PATCH /api/attempts/:id/lives`:
"increment" gives a life back (`used = max(0, used-1)`), "decrement" takes
one (`used = min(maxLives, used+1)`); a `LIVES_PATCH` event is logged. -/
def patchLivesStep (exam : Exam) (st : AttemptState) (op : LivesOp)
    (reason : Option String) : AttemptState :=
  let maxLives := exam.maxLives
  let used := st.livesUsed
  let used :=
    match op with
    | .increment => max 0 (used - 1)
    | .decrement => min maxLives (used + 1)
  let loggedReason :=
    match reason with
    | some r => r
    | none =>
      match op with
      | .increment => "MANUAL_LIFE_INCREMENT"
      | .decrement => "MANUAL_LIFE_DECREMENT"
  { st with
      livesUsed := used
      events := st.events ++ [⟨"LIVES_PATCH", loggedReason⟩] }

/-! ## Sequences of penalty / life-adjustment operations (for the bounds
invariant) -/

/-- One operation touching the lives counter: a student antifraud report or
a teacher life adjustment. -/
inductive LifeOp where
  | antifraud (now : ℤ) (ty : String)
  | lives (op : LivesOp) (reason : Option String)
deriving Repr

/-- Apply one `LifeOp` to the attempt state. -/
def applyLifeOp (exam : Exam) (st : AttemptState) : LifeOp → AttemptState
  | .antifraud now ty => (antifraudStep exam now st ty).1
  | .lives op reason => patchLivesStep exam st op reason

/-- Apply a sequence of operations in order. -/
def applyLifeOps (exam : Exam) (st : AttemptState) (ops : List LifeOp) :
    AttemptState :=
  ops.foldl (applyLifeOp exam) st

/-- The state of a fresh attempt created by
`POST /api/exams/:code/attempts/start` at time `t`. -/
def freshAttempt (t : ℤ) : AttemptState :=
  { status := "in_progress", startAt := some t, endAt := none,
    livesUsed := 0, extraTimeSecs := 0, score := none, events := [] }

/-! ## JavaScript value coercions

The grading code coerces payload values with `String(...)` and
`Number(...)`. We model the cases those coercions can meet here. Number
rendering of non-integral rationals and numeric parsing of non-integer
literals are modelled by the `Rat` printer / integer parser; no handler
behavior proved below depends on those corners. -/

/-- JS number-to-string for the numbers that occur here. -/
def ratToJsString (n : ℚ) : String :=
  if n.den = 1 then toString n.num else toString n

/-- JS `String(v)` on a payload value. An element of an array prints as
itself, except `null` which prints as the empty string inside a join. -/
def jsToString : JsVal → String
  | .null => "null"
  | .str s => s
  | .num n => ratToJsString n
  | .arr xs =>
    String.intercalate ","
      (xs.attach.map fun x =>
        match x with
        | ⟨.null, _⟩ => ""
        | ⟨v, _⟩ => jsToString v)
  | .objAnswers _ => "[object Object]"
  | .objValue _ _ => "[object Object]"
decreasing_by
  simp_wf
  rename_i hv
  have := List.sizeOf_lt_of_mem hv
  omega

/-- JS `Number(s)` restricted to integer literals; `none` is NaN. -/
def jsParseNumber (s : String) : Option ℚ :=
  let t := jsTrim s
  if t = "" then some 0
  else (jsToInt t).map (fun i => (i : ℚ))

/-- JS `Number(v)`; `none` is NaN. -/
def jsToNumber : JsVal → Option ℚ
  | .null => some 0
  | .str s => jsParseNumber s
  | .num n => some n
  | .arr [] => some 0
  | .arr [x] => jsToNumber x
  | .arr (_ :: _ :: _) => none
  | .objAnswers _ => none
  | .objValue _ _ => none

/-- Coercion `v ?? d` followed by `String(...)`: `null`/`undefined` give `d`. -/
def strOrDefault (d : String) : JsVal → String
  | .null => d
  | v => jsToString v

/-- Coercion `v ?? d` followed by `Number(...)`: `null`/`undefined` give `d`;
`none` is NaN. -/
def numOrDefault (d : ℚ) : JsVal → Option ℚ
  | .null => some d
  | v => jsToNumber v

/-- Equality of two JS numbers, `false` when either is NaN. -/
def numEq : Option ℚ → Option ℚ → Bool
  | some a, some b => a == b
  | _, _ => false

/-- Missing (`undefined`) collapses to `null`: `Option JsVal → JsVal`. -/
def valOrNull : Option JsVal → JsVal
  | none => .null
  | some v => v

/-- The source's `unwrapAnswerContent`: stored content of the wrapped shape
`\x7b value, teacherFeedback \x7d` yields its `value`; anything else is
returned as is (`null` for a missing row). -/
def unwrapAnswerContent : Option JsVal → JsVal
  | some (.objValue v _) => v
  | some v => v
  | none => .null

/-- The source's `wrapAnswerContent(existingContent, teacherFeedback)`: re-wraps the
unwrapped value with the given feedback (`null` feedback stored as null). -/
def wrapAnswerContent (existing : Option JsVal) (tf : Option String) : JsVal :=
  .objValue (unwrapAnswerContent existing) tf

/-! ## Auto-grading (shared by POST /api/attempts/:id/submit and
`finalizeAttemptIfExpired`; the two sites carry the same kind-by-kind
logic) -/

/-- The source's `normalizeQuestionKind`: uppercase, with `FIB → FILL_IN` and
`TEXT → SHORT_TEXT`. -/
def normalizeQuestionKind (kind : String) : String :=
  let k := jsToUpper kind
  if k = "FIB" then "FILL_IN" else if k = "TEXT" then "SHORT_TEXT" else k

/-- A `QuestionLite` row: `answer` is the parsed JSON of the stored correct
answer (`null` both for a missing answer and for a JSON parse failure, as in
the source's `try/catch`). -/
structure Question where
  id : String
  kind : String
  answer : Option JsVal := none
  points : Option ℤ := some 1

/-- The point value `Number(q.points ?? 1) || 1`: a missing or zero point value becomes 1. -/
def Question.pts (q : Question) : ℚ :=
  match q.points with
  | none => 1
  | some p => if p = 0 then 1 else (p : ℚ)

/-- Coercion `String(x ?? "")` applied to one element of an expected / given array. -/
def elemToStr : JsVal → String
  | .null => ""
  | v => jsToString v

/-- The expected blank list of a fill-in question: `correct.answers` when
that is an array, else empty. -/
def fibExpected (correct : Option JsVal) : List String :=
  match correct with
  | some (.objAnswers xs) => xs.map elemToStr
  | _ => []

/-- The given blank list: the value itself when it is an array, else its
`answers` field when that is an array, else empty. -/
def fibGiven (value : JsVal) : List String :=
  match value with
  | .arr xs => xs.map elemToStr
  | .objAnswers xs => xs.map elemToStr
  | _ => []

/-- Case-insensitive trimmed form of one blank. -/
def normBlank (s : String) : String := jsToLower (jsTrim s)

/-- Count of index-wise matches: for each index of `expected`, compare the
trimmed lowercased given blank (empty when missing) with the trimmed
lowercased expected blank. -/
def fibMatchCount (expected given : List String) : ℕ :=
  (List.range expected.length).countP
    (fun i => normBlank (given.getD i "") == normBlank (expected.getD i ""))

/-- Fill-in-blank score: `points × ok / expected.length`, or 0 when there
are no expected blanks. -/
def fibScore (pts : ℚ) (expected given : List String) : ℚ :=
  if expected.length = 0 then 0
  else pts * (fibMatchCount expected given : ℚ) / (expected.length : ℚ)

/-- The kind-by-kind auto-grading rule applied to a (normalized) question
kind, parsed correct answer, point value and given value. `none` for an
unrecognized kind (the expiry path leaves such answers unscored; the submit
path coalesces `none` to 0). -/
def autoKindScore (kind : String) (correct : Option JsVal) (pts : ℚ)
    (value : JsVal) : Option ℚ :=
  if kind = "TRUE_FALSE" then
    let given := jsToLower (strOrDefault "" value)
    let corr := jsToLower (strOrDefault "" (valOrNull correct))
    some (if given = corr then pts else 0)
  else if kind = "MCQ" then
    let given := numOrDefault (-999) value
    let corr := numOrDefault (-888) (valOrNull correct)
    some (if numEq given corr then pts else 0)
  else if kind = "SHORT_TEXT" then
    let corr := jsToLower (jsTrim (strOrDefault "" (valOrNull correct)))
    let given := jsToLower (jsTrim (strOrDefault "" value))
    some (if corr ≠ "" ∧ given ≠ "" ∧ corr = given then pts else 0)
  else if kind = "FILL_IN" then
    some (fibScore pts (fibExpected correct) (fibGiven value))
  else none

/-! ## JSON serialization (`JSON.stringify`) -/

/-- Escape one character for a JSON string literal (quote and backslash;
control characters do not occur in the inputs considered here). -/
def escapeJsonChar (c : Char) : List Char :=
  if c = '"' then ['\\', '"'] else if c = '\\' then ['\\', '\\'] else [c]

/-- Escape a JSON string body. -/
def escapeJson (s : String) : String :=
  String.mk (s.data.foldr (fun c acc => escapeJsonChar c ++ acc) [])

/-- The effect of `JSON.stringify` on a payload value. -/
def jsonStringify : JsVal → String
  | .null => "null"
  | .str s => "\"" ++ escapeJson s ++ "\""
  | .num n => ratToJsString n
  | .arr xs =>
    "[" ++ String.intercalate "," (xs.attach.map fun x => jsonStringify x.1) ++ "]"
  | .objAnswers xs =>
    "\x7b\"answers\":[" ++
      String.intercalate "," (xs.attach.map fun x => jsonStringify x.1) ++ "]\x7d"
  | .objValue v tf =>
    "\x7b\"value\":" ++ jsonStringify v ++ ",\"teacherFeedback\":" ++
      (match tf with
       | none => "null"
       | some t => "\"" ++ escapeJson t ++ "\"") ++ "\x7d"
decreasing_by
  all_goals simp_wf
  all_goals first
    | (have h := List.sizeOf_lt_of_mem x.2; omega)
    | omega

/-- The effect of `JSON.stringify` on a plain string array. -/
def jsonStringifyStrArr (xs : List String) : String :=
  jsonStringify (.arr (xs.map .str))

/-! ## Answer rows and POST /api/attempts/:id/submit -/

/-- An `Answer` row for one attempt: question reference, stored content
(`none` for a database NULL) and per-question score. -/
structure AnswerRow where
  questionId : String
  content : Option JsVal := none
  score : Option ℚ := none

/-- The source's `serializeAnswerContent(kind, value)`: what `submit` stores in
`Answer.content`. Fill-in values become a JSON string of the trimmed string
array; MCQ and the rest become the plain string form (`null` stays null,
and an empty MCQ value becomes null). -/
def serializeAnswerContent (kind : String) (value : JsVal) : Option JsVal :=
  let k := normalizeQuestionKind kind
  if k = "FILL_IN" then
    let arr : List JsVal :=
      match value with
      | .arr xs => xs
      | .objAnswers xs => xs
      | .str s => [.str s]
      | .num n => [.num n]
      | _ => []
    some (.str (jsonStringifyStrArr (arr.map (fun v => jsTrim (elemToStr v)))))
  else if k = "MCQ" then
    match value with
    | .null => none
    | .str s => if s = "" then none else some (.str s)
    | .num n => some (.str (jsToString (.num n)))
    | .arr xs => some (.str (jsToString (.arr xs)))
    | .objAnswers xs => some (.str (jsToString (.objAnswers xs)))
    | .objValue v tf => some (.str (jsToString (.objValue v tf)))
  else
    match value with
    | .null => none
    | .str s => some (.str (jsToString (.str s)))
    | .num n => some (.str (jsToString (.num n)))
    | .arr xs => some (.str (jsToString (.arr xs)))
    | .objAnswers xs => some (.str (jsToString (.objAnswers xs)))
    | .objValue v tf => some (.str (jsToString (.objValue v tf)))

/-- Upsert by `findFirst` + `update` / `create`: replace content and score of the
first row for this question, or append a new row. -/
def upsertScoredRow (qid : String) (content : Option JsVal) (score : Option ℚ) :
    List AnswerRow → List AnswerRow
  | [] => [⟨qid, content, score⟩]
  | r :: rest =>
    if r.questionId = qid then { r with content := content, score := score } :: rest
    else r :: upsertScoredRow qid content score rest

/-- One submitted (questionId, value) pair. -/
structure SubmittedAnswer where
  questionId : String
  value : Option JsVal := none

/-- The per-answer loop of `submit`: skip unknown question ids; for known
questions accumulate `totalPoints`, compute the auto partial score when
`auto` (an unrecognized kind scores 0 on this path), upsert the answer row
and accumulate the score. Returns (rows, score, totalPoints). -/
def submitLoop (auto : Bool) (qs : List Question) :
    List AnswerRow → List SubmittedAnswer → List AnswerRow × ℚ × ℚ
  | rows, [] => (rows, 0, 0)
  | rows, a :: rest =>
    match qs.find? (fun q => q.id == a.questionId) with
    | none => submitLoop auto qs rows rest
    | some q =>
      let pts := q.pts
      let value := valOrNull a.value
      let partScore : Option ℚ :=
        if auto then some ((autoKindScore (normalizeQuestionKind q.kind) q.answer pts value).getD 0)
        else none
      let storedContent := serializeAnswerContent q.kind value
      let rows' := upsertScoredRow q.id storedContent partScore rows
      let (rowsF, score, totalPoints) := submitLoop auto qs rows' rest
      (rowsF, score + (match partScore with | some p => p | none => 0),
       totalPoints + pts)

/-- Response body of `submit`. -/
structure SubmitResponse where
  gradingMode : String
  score : Option ℚ
  maxScore : Option ℚ
deriving DecidableEq, Repr

/-- Handler `POST /api/attempts/:id/submit` (after attempt and exam were found):
empty answers list fails with `NO_ANSWERS`; otherwise every submitted pair
is processed by `submitLoop`, the attempt becomes `submitted` with
`endAt = now`, and its score is the auto-graded sum (or null when the exam
grades manually). -/
def submitHandler (exam : Exam) (qs : List Question) (st : AttemptState)
    (rows : List AnswerRow) (payload : List SubmittedAnswer) (now : ℤ) :
    Except String (AttemptState × List AnswerRow × SubmitResponse) :=
  let gm := jsToLower (exam.gradingMode.getD "auto")
  let auto := gm ≠ "manual"
  if payload.isEmpty then .error "NO_ANSWERS"
  else
    let (rows', score, totalPoints) := submitLoop auto qs rows payload
    let st' : AttemptState :=
      { st with
          status := "submitted"
          endAt := some now
          score := if auto then some score else none }
    .ok (st', rows',
      ⟨if auto then "auto" else "manual",
       if auto then some score else none,
       if auto then some totalPoints else exam.maxScore⟩)

/-! ## finalizeAttemptIfExpired -/

/-- The deadline: `startAt + durationMins minutes + extraTimeSecs seconds`
in milliseconds. -/
def computeDeadline (startAt durationMins extraTimeSecs : ℤ) : ℤ :=
  startAt + durationMins * 60 * 1000 + extraTimeSecs * 1000

/-- The per-question grading loop of the expiry path: grade every question
of the exam against the stored answer rows (an unrecognized kind stays
unscored), updating the stored rows' scores; returns (rows, score). -/
def expireGradeLoop (rows : List AnswerRow) :
    List Question → List AnswerRow × ℚ
  | [] => (rows, 0)
  | q :: rest =>
    let pts := q.pts
    let stored := rows.find? (fun r => r.questionId == q.id)
    let given := unwrapAnswerContent (stored.bind (·.content))
    let partScore := autoKindScore (normalizeQuestionKind q.kind) q.answer pts given
    let rows' :=
      match stored with
      | some r => rows.map (fun r' => if r'.questionId == r.questionId then { r' with score := partScore } else r')
      | none => rows
    let (rowsF, score) := expireGradeLoop rows' rest
    (rowsF, score + (match partScore with | some p => p | none => 0))

/-- The source's `finalizeAttemptIfExpired(attempt, exam)`: returns the attempt unchanged
when `endAt` is already set, when the exam has no positive duration or the
attempt no start time, or when `now` is before the deadline. Otherwise it
finalizes: when the exam does not grade manually every question is
auto-graded against the stored answers and the attempt becomes `submitted`
with `endAt = now` and the summed score; a manually graded exam becomes
`submitted` with `endAt = now` and a null score. -/
def finalizeAttemptIfExpired (exam : Exam) (qs : List Question)
    (rows : List AnswerRow) (now : ℤ) (st : AttemptState) :
    AttemptState × List AnswerRow :=
  if st.endAt.isSome then (st, rows)
  else
    match exam.durationMins.orElse (fun _ => exam.durationMin), st.startAt with
    | none, _ => (st, rows)
    | some _, none => (st, rows)
    | some d, some start =>
      if d ≤ 0 then (st, rows)
      else if now < computeDeadline start d st.extraTimeSecs then (st, rows)
      else
        let gm := jsToLower (exam.gradingMode.getD "auto")
        if gm ≠ "manual" then
          let (rows', score) := expireGradeLoop rows qs
          ({ st with status := "submitted", endAt := some now, score := some score }, rows')
        else
          ({ st with status := "submitted", endAt := some now, score := none }, rows)



/-! ## POST /api/exams/:code/attempts/start -/

/-- A persisted `Attempt` row: identity plus the mutable state. -/
structure StoredAttempt where
  id : ℕ
  examId : String
  studentId : String
  st : AttemptState
deriving DecidableEq, Repr

/-- Outcome of the start handler. -/
inductive StartOutcome where
  | missingName
  | alreadySubmitted
  | examNotOpen
  | examClosed
  | resumed (id : ℕ)
  | created (id : ℕ)
deriving DecidableEq, Repr

/-- Replace the state of the attempt with the given id. -/
def replaceAttempt (db : List StoredAttempt) (id : ℕ) (st : AttemptState) :
    List StoredAttempt :=
  db.map (fun a => if a.id = id then { a with st := st } else a)

/-- The student key: `email:<trimmed lowercased email>` when an email was
sent, else `name:<trimmed name>`. -/
def startStudentKey (studentName studentEmail : String) : String :=
  let email := jsToLower (jsTrim studentEmail)
  let name := jsTrim studentName
  if email ≠ "" then "email:" ++ email else "name:" ++ name

/-- The `findFirst` filter for a running prior attempt:
same exam, same student key, status `in_progress`, no `endAt`. -/
def startInProgressPred (exam : Exam) (key : String) (a : StoredAttempt) :
    Bool :=
  a.examId == exam.id && a.studentId == key &&
    a.st.status == "in_progress" && a.st.endAt == none

/-- The `findFirst` filter for a finished prior attempt: same exam, same
student key, and either `endAt` set or a terminal status. -/
def startTerminalPred (exam : Exam) (key : String) (a : StoredAttempt) :
    Bool :=
  a.examId == exam.id && a.studentId == key &&
    (a.st.endAt != none ||
     ["submitted", "in_review", "graded"].contains a.st.status)

/-- Handler `POST /api/exams/:code/attempts/start` (after the exam was found):
derive the student key from the trimmed email (lowercased) or name; if an
`in_progress` attempt with no `endAt` exists for (exam, key), run the expiry
check on it — resume it if it is still running, else answer
`ATTEMPT_ALREADY_SUBMITTED`; otherwise if any attempt for (exam, key) has
`endAt` set or a terminal status, answer `ATTEMPT_ALREADY_SUBMITTED`;
otherwise enforce the open/close window and create a fresh `in_progress`
attempt with `livesUsed = 0`. `answersOf` gives each attempt's stored answer
rows (read by the expiry check). -/
def startHandler (exam : Exam) (qs : List Question)
    (answersOf : ℕ → List AnswerRow) (db : List StoredAttempt) (now : ℤ)
    (studentName studentEmail : String) (newId : ℕ) :
    StartOutcome × List StoredAttempt :=
  let email := jsToLower (jsTrim studentEmail)
  let name := jsTrim studentName
  if email = "" ∧ name = "" then (.missingName, db)
  else
    let studentKey := startStudentKey studentName studentEmail
    match db.find? (startInProgressPred exam studentKey) with
    | some att =>
      let fin := finalizeAttemptIfExpired exam qs (answersOf att.id) now att.st
      let db' := replaceAttempt db att.id fin.1
      if fin.1.endAt.isSome then (.alreadySubmitted, db')
      else (.resumed att.id, db')
    | none =>
      match db.find? (startTerminalPred exam studentKey) with
      | some _ => (.alreadySubmitted, db)
      | none =>
        match exam.startsAt with
        | some s =>
          if now < s then (.examNotOpen, db)
          else
            match exam.endsAt with
            | some e =>
              if e < now then (.examClosed, db)
              else (.created newId, db ++ [⟨newId, exam.id, studentKey, freshAttempt now⟩])
            | none => (.created newId, db ++ [⟨newId, exam.id, studentKey, freshAttempt now⟩])
        | none =>
          match exam.endsAt with
          | some e =>
            if e < now then (.examClosed, db)
            else (.created newId, db ++ [⟨newId, exam.id, studentKey, freshAttempt now⟩])
          | none => (.created newId, db ++ [⟨newId, exam.id, studentKey, freshAttempt now⟩])

/-! ## PATCH /api/attempts/:attemptId/draft -/

/-- One entry of the draft autosave payload (`item?.value ?? null` makes a
missing value `null`). -/
structure DraftEntry where
  questionId : String
  value : Option JsVal := none

/-- The draft upsert: update only the content of the first existing row for
this question, or create a row with that content and no score. A JS `null`
value is stored as a database NULL. -/
def draftUpsertRow (qid : String) (v : JsVal) :
    List AnswerRow → List AnswerRow
  | [] => [⟨qid, (match v with | .null => none | v' => some v'), none⟩]
  | r :: rest =>
    if r.questionId = qid then
      { r with content := (match v with | .null => none | v' => some v') } :: rest
    else r :: draftUpsertRow qid v rest

/-- The per-entry loop of the draft handler: skip entries with a blank
question id; reject an entry whose JSON-serialized value exceeds 20000
characters, keeping the rows already upserted; otherwise upsert and
continue. -/
def draftLoop (rows : List AnswerRow) :
    List DraftEntry → List AnswerRow × Option String
  | [] => (rows, none)
  | e :: rest =>
    let qid := jsTrim e.questionId
    if qid = "" then draftLoop rows rest
    else
      let v := valOrNull e.value
      if 20000 < (jsonStringify v).length then
        (rows, some "ANSWER_VALUE_TOO_LARGE")
      else draftLoop (draftUpsertRow qid v rows) rest

/-- Handler `PATCH /api/attempts/:attemptId/draft` (after the attempt was found):
closed attempts answer `ATTEMPT_CLOSED`; a missing answers array answers
`ANSWERS_REQUIRED`; more than 200 entries answer `ANSWERS_TOO_LARGE`
without touching any row; otherwise the entries are processed in order.
Returns the answer rows after the call and the error, if any. -/
def draftHandler (st : AttemptState) (rows : List AnswerRow)
    (answers : Option (List DraftEntry)) : List AnswerRow × Option String :=
  if st.endAt.isSome || st.status != "in_progress" then
    (rows, some "ATTEMPT_CLOSED")
  else
    match answers with
    | none => (rows, some "ANSWERS_REQUIRED")
    | some entries =>
      if 200 < entries.length then (rows, some "ANSWERS_TOO_LARGE")
      else draftLoop rows entries

/-! ## Manual grading (PATCH /exams/:code/attempts/:attemptId/grading and
POST /teacher/grading/attempts/:attemptId/finalize share this per-question
loop) -/

/-- One (questionId, score, feedback) tuple of a manual grading request.
`score = none` models both `null` and an absent field. -/
structure GradeItem where
  questionId : String
  score : Option JsVal := none
  feedback : Option String := none

/-- The score coercion `scoreRaw === null || scoreRaw === undefined ? null :
Math.max(0, Number(scoreRaw))`, followed by the NaN check: a non-numeric
score is rejected as `SCORE_INVALID`; a numeric one is clamped below at 0. -/
def clampScore (o : Option ℚ) : Except String (Option ℚ) :=
  match o with
  | none => .error "SCORE_INVALID"
  | some n => .ok (some (max 0 n))

def scoreOfItem : Option JsVal → Except String (Option ℚ)
  | none => .ok none
  | some .null => .ok none
  | some (.str s) => clampScore (jsToNumber (.str s))
  | some (.num n) => clampScore (jsToNumber (.num n))
  | some (.arr xs) => clampScore (jsToNumber (.arr xs))
  | some (.objAnswers xs) => clampScore (jsToNumber (.objAnswers xs))
  | some (.objValue v tf) => clampScore (jsToNumber (.objValue v tf))

/-- The grading upsert for one question: an existing row keeps its score
unless a non-null score was sent, and gets re-wrapped content when feedback
was sent; a missing row is created with the sent score and feedback. -/
def gradeUpsertRow (qid : String) (sc : Option ℚ) (fb : Option String) :
    List AnswerRow → List AnswerRow
  | [] =>
    [⟨qid,
      (match fb with
       | some f => some (wrapAnswerContent none (some f))
       | none => none),
      sc⟩]
  | r :: rest =>
    if r.questionId = qid then
      { r with
          score := (match sc with | some s => some s | none => r.score)
          content :=
            (match fb with
             | some f => some (wrapAnswerContent r.content (some f))
             | none => r.content) } :: rest
    else r :: gradeUpsertRow qid sc fb rest

/-- The per-item loop of the grading handlers: skip blank question ids,
reject a non-numeric score (keeping the rows already upserted), upsert
otherwise. -/
def gradeLoop (rows : List AnswerRow) :
    List GradeItem → List AnswerRow × Option String
  | [] => (rows, none)
  | item :: rest =>
    let qid := jsTrim item.questionId
    if qid = "" then gradeLoop rows rest
    else
      match scoreOfItem item.score with
      | .error e => (rows, some e)
      | .ok sc => gradeLoop (gradeUpsertRow qid sc item.feedback rows) rest

/-- Total score: the sum of all numeric per-answer scores (null scores
contribute nothing). -/
def totalScoreOf (rows : List AnswerRow) : ℚ :=
  rows.foldl (fun acc r => acc + (match r.score with | some s => s | none => 0)) 0

/-- Handler `PATCH /exams/:code/attempts/:attemptId/grading` (after the exam,
authorization and attempt checks): a missing `perQuestion` array answers
`PER_QUESTION_REQUIRED`; otherwise the items are upserted, the attempt's
score becomes the sum of all per-answer scores, and when `finalize` is true
its status becomes `graded`. `endAt` is never touched. Returns the attempt
state, the answer rows and the error, if any. -/
def gradingPatchHandler (st : AttemptState) (rows : List AnswerRow)
    (perQuestion : Option (List GradeItem)) (finalize : Bool) :
    AttemptState × List AnswerRow × Option String :=
  match perQuestion with
  | none => (st, rows, some "PER_QUESTION_REQUIRED")
  | some items =>
    match gradeLoop rows items with
    | (rows', some e) => (st, rows', some e)
    | (rows', none) =>
      let total := totalScoreOf rows'
      let st' :=
        { st with
            score := some total
            status := if finalize then "graded" else st.status }
      (st', rows', none)

/-- The reserved pseudo-question id holding overall feedback. -/
def OVERALL_FEEDBACK_QID : String := "__overall__"

/-- Upsert of the overall-feedback pseudo-answer: its score is forced to
null so it never contributes to the total. -/
def overallFeedbackUpsert (fb : String) : List AnswerRow → List AnswerRow
  | [] => [⟨OVERALL_FEEDBACK_QID, some (wrapAnswerContent none (some fb)), none⟩]
  | r :: rest =>
    if r.questionId = OVERALL_FEEDBACK_QID then
      { r with content := some (wrapAnswerContent r.content (some fb)),
               score := none } :: rest
    else r :: overallFeedbackUpsert fb rest

/-- Handler `POST /teacher/grading/attempts/:attemptId/finalize` (after the checks):
like the grading patch, then the optional overall feedback (rejected over
2000 characters), then the attempt's score becomes the total and its status
becomes `graded`. `endAt` is never touched. -/
def teacherFinalizeHandler (st : AttemptState) (rows : List AnswerRow)
    (perQuestion : Option (List GradeItem))
    (overallFeedback : Option (Option String)) :
    AttemptState × List AnswerRow × Option String :=
  match perQuestion with
  | none => (st, rows, some "PER_QUESTION_REQUIRED")
  | some items =>
    match gradeLoop rows items with
    | (rows', some e) => (st, rows', some e)
    | (rows', none) =>
      let withOverall : Except String (List AnswerRow) :=
        match overallFeedback with
        | none => .ok rows'
        | some raw =>
          let fb := (match raw with | none => "" | some s => s)
          if 2000 < fb.length then .error "OVERALL_FEEDBACK_TOO_LARGE"
          else .ok (overallFeedbackUpsert fb rows')
      match withOverall with
      | .error e => (st, rows', some e)
      | .ok rows'' =>
        let total := totalScoreOf rows''
        ({ st with score := some total, status := "graded" }, rows'', none)

/-! ## POST /api/attempts/:id/events (the older `attempts.ts` revision)

This revision counts lives downward (`attempt.lives`) and carries the
guard that ignores events on attempts that are no longer in progress. -/

/-- The attempt fields of the `attempts.ts` revision. -/
structure AttemptsTsAttempt where
  lives : ℤ
  status : String
  endedAt : Option ℤ := none
deriving DecidableEq, Repr

/-- Response of the events handler. -/
structure EventsResponse where
  livesLeft : ℤ
  status : String
  autoSubmitted : Bool
  ignored : Bool
deriving DecidableEq, Repr

/-- The penalizing set of the `attempts.ts` revision. -/
def ATTEMPTS_TS_PENALTY : List String :=
  ["BLUR", "VISIBILITY_HIDDEN", "COPY", "PASTE", "CONTEXT_MENU",
   "FULLSCREEN_EXIT"]

/-- Handler `POST /api/attempts/:id/events`: missing type is a 400; an attempt not
`in_progress` is left untouched and answered with `ignored = true`; a
closed exam is a 403; otherwise a penalizing (trimmed, uppercased) type
costs one life (floored at 0) and reaching 0 lives auto-submits the
attempt (`status = "SUBMITTED"`, `endedAt = now`). -/
def eventsHandler (examStatus : String) (now : ℤ) (att : AttemptsTsAttempt)
    (ty : String) : Except String (AttemptsTsAttempt × EventsResponse) :=
  if ty = "" then .error "Missing type"
  else
    let t := jsToUpper (jsTrim ty)
    if att.status ≠ "in_progress" then
      .ok (att, ⟨att.lives, att.status,
                 att.status == "SUBMITTED" || att.lives == 0, true⟩)
    else if jsToUpper examStatus ≠ "OPEN" then .error "EXAM_CLOSED"
    else
      let lives :=
        if ATTEMPTS_TS_PENALTY.contains t then max (att.lives - 1) 0
        else att.lives
      let att' := { att with lives := lives }
      if lives = 0 then
        .ok ({ att' with status := "SUBMITTED", endedAt := some now },
             ⟨lives, "SUBMITTED", true, false⟩)
      else .ok (att', ⟨lives, att.status, false, false⟩)


/-- The allow-list as the specification words it: the normalized tags it
lists, hyphens read as the underscore the normalization produces. -/
def specAllowList : List String :=
  ["BLUR", "VISIBILITY_HIDDEN", "COPY", "CUT", "PASTE", "PRINT",
   "PRINT_SCREEN", "FULLSCREEN_EXIT"]

/-- The rows after the draft loop has processed a prefix of entries. -/
def draftApplyAll (rows : List AnswerRow) (entries : List DraftEntry) :
    List AnswerRow :=
  entries.foldl
    (fun r d => draftUpsertRow (jsTrim d.questionId) (valOrNull d.value) r) rows

/-! # Theorems -/

/-- The lives-counter bounds are preserved by one operation. -/
lemma applyLifeOp_bounds (exam : Exam) (st : AttemptState) (op : LifeOp)
    (hL : 0 ≤ exam.maxLives) (h0 : 0 ≤ st.livesUsed)
    (h1 : st.livesUsed ≤ exam.maxLives) :
    0 ≤ (applyLifeOp exam st op).livesUsed ∧
      (applyLifeOp exam st op).livesUsed ≤ exam.maxLives := by
  cases op with
  | antifraud now ty =>
    cases hp : penalizes ty <;>
      simp [applyLifeOp, antifraudStep, hp] <;> omega
  | lives o reason =>
    cases o <;> simp [applyLifeOp, patchLivesStep] <;> omega

/-- The bounds are preserved by any sequence of operations. -/
lemma applyLifeOps_bounds (exam : Exam) (hL : 0 ≤ exam.maxLives) :
    ∀ (ops : List LifeOp) (st : AttemptState), 0 ≤ st.livesUsed →
      st.livesUsed ≤ exam.maxLives →
      0 ≤ (applyLifeOps exam st ops).livesUsed ∧
        (applyLifeOps exam st ops).livesUsed ≤ exam.maxLives := by
  intro ops
  induction ops with
  | nil => intro st h0 h1; exact ⟨h0, h1⟩
  | cons op rest ih =>
    intro st h0 h1
    have hstep := applyLifeOp_bounds exam st op hL h0 h1
    simpa [applyLifeOps] using ih (applyLifeOp exam st op) hstep.1 hstep.2

/-- C1: for every exam with `livesAllowed = L ≥ 0`, after any sequence of
antifraud penalty reports and teacher life increments/decrements applied to
a fresh attempt, `0 ≤ livesUsed ≤ L`: a penalizing event adds 1 clamped at
`L`, and a teacher adjustment moves the counter by 1 clamped at both
bounds. -/
theorem c1_livesUsed_bounded (exam : Exam) (t : ℤ) (ops : List LifeOp)
    (hL : 0 ≤ exam.maxLives) :
    0 ≤ (applyLifeOps exam (freshAttempt t) ops).livesUsed ∧
      (applyLifeOps exam (freshAttempt t) ops).livesUsed ≤ exam.maxLives :=
  applyLifeOps_bounds exam hL ops (freshAttempt t) (by simp [freshAttempt])
    (by simp [freshAttempt]; exact hL)

/-- Witness for C1 at a concrete exam (3 lives) and operation sequence. -/
theorem c1_livesUsed_bounded_witness :
    0 ≤ (Exam.mk "E" (some 3) none none none none none none).maxLives ∧
      (0 ≤ (applyLifeOps (Exam.mk "E" (some 3) none none none none none none)
              (freshAttempt 0)
              [.antifraud 10 "blur", .antifraud 20 "copy",
               .lives .increment none, .antifraud 30 "BLUR",
               .antifraud 40 "paste", .antifraud 50 "cut",
               .lives .decrement (some "late")]).livesUsed ∧
        (applyLifeOps (Exam.mk "E" (some 3) none none none none none none)
            (freshAttempt 0)
            [.antifraud 10 "blur", .antifraud 20 "copy",
             .lives .increment none, .antifraud 30 "BLUR",
             .antifraud 40 "paste", .antifraud 50 "cut",
             .lives .decrement (some "late")]).livesUsed ≤
          (Exam.mk "E" (some 3) none none none none none none).maxLives) :=
  ⟨by decide,
   c1_livesUsed_bounded (Exam.mk "E" (some 3) none none none none none none)
     0 _ (by decide)⟩


/-- C2 counterexample: with a prior `in_progress`, unexpired attempt for the
same (exam, studentKey), `start` does not fail — it resumes the existing
attempt (outcome `resumed`, no error) and creates no new row. The claim
says any prior attempt, in progress or terminal, makes `start` fail with a
duplicate-attempt error. -/
theorem c2_counterexample :
    (startHandler ⟨"E", some 3, none, none, none, none, none, none⟩ []
        (fun _ => []) [⟨7, "E", "email:a@b.c", ⟨"in_progress", some 0, none, 0, 0, none, []⟩⟩]
        100 "Ann" "a@b.c" 99).1 = .resumed 7 ∧
      (startHandler ⟨"E", some 3, none, none, none, none, none, none⟩ []
        (fun _ => []) [⟨7, "E", "email:a@b.c", ⟨"in_progress", some 0, none, 0, 0, none, []⟩⟩]
        100 "Ann" "a@b.c" 99).1 ≠ .alreadySubmitted ∧
      (startHandler ⟨"E", some 3, none, none, none, none, none, none⟩ []
        (fun _ => []) [⟨7, "E", "email:a@b.c", ⟨"in_progress", some 0, none, 0, 0, none, []⟩⟩]
        100 "Ann" "a@b.c" 99).2.length = 1 := by
  refine ⟨rfl, by decide, rfl⟩

/-- C2 as amended: a prior attempt found by the in-progress query whose
expiry check leaves it running is resumed (its id is returned, no new row
is created); when no running prior attempt matches but a prior attempt with
`endAt` set or a terminal status exists, `start` fails with
`ATTEMPT_ALREADY_SUBMITTED` and the rows are unchanged. -/
theorem c2_amended :
    (∀ (exam : Exam) (qs : List Question) (ansOf : ℕ → List AnswerRow)
        (db : List StoredAttempt) (now : ℤ) (sn se : String) (newId : ℕ)
        (att : StoredAttempt),
      ¬(jsToLower (jsTrim se) = "" ∧ jsTrim sn = "") →
      db.find? (startInProgressPred exam (startStudentKey sn se)) = some att →
      (finalizeAttemptIfExpired exam qs (ansOf att.id) now att.st).1.endAt = none →
      (startHandler exam qs ansOf db now sn se newId).1 = .resumed att.id ∧
        (startHandler exam qs ansOf db now sn se newId).2.length = db.length) ∧
    (∀ (exam : Exam) (qs : List Question) (ansOf : ℕ → List AnswerRow)
        (db : List StoredAttempt) (now : ℤ) (sn se : String) (newId : ℕ)
        (a : StoredAttempt),
      ¬(jsToLower (jsTrim se) = "" ∧ jsTrim sn = "") →
      db.find? (startInProgressPred exam (startStudentKey sn se)) = none →
      db.find? (startTerminalPred exam (startStudentKey sn se)) = some a →
      startHandler exam qs ansOf db now sn se newId = (.alreadySubmitted, db)) := by
  constructor
  · intro exam qs ansOf db now sn se newId att hname hfind hrun
    simp only [startHandler, startStudentKey]
    rw [if_neg hname]
    simp only [startStudentKey] at hfind
    rw [hfind]
    simp [hrun, replaceAttempt]
  · intro exam qs ansOf db now sn se newId a hname hip hterm
    simp only [startHandler, startStudentKey]
    rw [if_neg hname]
    simp only [startStudentKey] at hip hterm
    rw [hip, hterm]

/-- Witness for C2 as amended, at the two concrete rosters. -/
theorem c2_amended_witness :
    ((startHandler ⟨"E", some 3, none, none, none, none, none, none⟩ []
        (fun _ => []) [⟨7, "E", "email:a@b.c", ⟨"in_progress", some 0, none, 0, 0, none, []⟩⟩]
        100 "Ann" "a@b.c" 99).1 = .resumed 7 ∧
      (startHandler ⟨"E", some 3, none, none, none, none, none, none⟩ []
        (fun _ => []) [⟨7, "E", "email:a@b.c", ⟨"in_progress", some 0, none, 0, 0, none, []⟩⟩]
        100 "Ann" "a@b.c" 99).2.length = 1) ∧
      startHandler ⟨"E", some 3, none, none, none, none, none, none⟩ []
        (fun _ => []) [⟨7, "E", "email:a@b.c", ⟨"submitted", some 0, some 5, 0, 0, none, []⟩⟩]
        100 "Ann" "a@b.c" 99 =
        (.alreadySubmitted,
         [⟨7, "E", "email:a@b.c", ⟨"submitted", some 0, some 5, 0, 0, none, []⟩⟩]) :=
  ⟨c2_amended.1 ⟨"E", some 3, none, none, none, none, none, none⟩ []
      (fun _ => []) [⟨7, "E", "email:a@b.c", ⟨"in_progress", some 0, none, 0, 0, none, []⟩⟩]
      100 "Ann" "a@b.c" 99 ⟨7, "E", "email:a@b.c", ⟨"in_progress", some 0, none, 0, 0, none, []⟩⟩
      (by decide) (by decide) (by decide),
   c2_amended.2 ⟨"E", some 3, none, none, none, none, none, none⟩ []
      (fun _ => []) [⟨7, "E", "email:a@b.c", ⟨"submitted", some 0, some 5, 0, 0, none, []⟩⟩]
      100 "Ann" "a@b.c" 99 ⟨7, "E", "email:a@b.c", ⟨"submitted", some 0, some 5, 0, 0, none, []⟩⟩
      (by decide) (by decide) (by decide)⟩


/-- C3 counterexample: the mounted antifraud handler has no terminal-status
guard. On a `submitted` attempt (with `endAt` set), a `BLUR` report still
increments `livesUsed` and appends to the event history — the claim says
RecordPenalty on a terminal attempt mutates neither. -/
theorem c3_counterexample :
    (antifraudStep ⟨"E", some 3, none, none, none, none, none, none⟩ 2000
        ⟨"submitted", some 0, some 1000, 0, 0, none, []⟩ "BLUR").1.livesUsed = 1 ∧
      (⟨"submitted", some 0, some 1000, 0, 0, none, []⟩ : AttemptState).livesUsed = 0 ∧
      (antifraudStep ⟨"E", some 3, none, none, none, none, none, none⟩ 2000
        ⟨"submitted", some 0, some 1000, 0, 0, none, []⟩ "BLUR").1.events =
        [⟨"ANTIFRAUD", "BLUR"⟩] := by
  refine ⟨by decide, by decide, by decide⟩

/-- C3 as amended: the `attempts.ts` events endpoint is a no-op on any
attempt that is not `in_progress` — it returns the current state with
`ignored = true` and mutates nothing; the mounted antifraud endpoint lacks
this guard (see the counterexample). -/
theorem c3_amended (examStatus : String) (now : ℤ) (att : AttemptsTsAttempt)
    (ty : String) (hty : ty ≠ "") (hst : att.status ≠ "in_progress") :
    eventsHandler examStatus now att ty =
      .ok (att, ⟨att.lives, att.status,
                 att.status == "SUBMITTED" || att.lives == 0, true⟩) := by
  simp [eventsHandler, hty, hst]

/-- Witness for C3 as amended at a submitted attempt. -/
theorem c3_amended_witness :
    ("BLUR" ≠ "" ∧ ("SUBMITTED" : String) ≠ "in_progress") ∧
      eventsHandler "OPEN" 50 ⟨3, "SUBMITTED", some 1⟩ "BLUR" =
        .ok (⟨3, "SUBMITTED", some 1⟩, ⟨3, "SUBMITTED", true, true⟩) :=
  ⟨⟨by decide, by decide⟩, by
    have h := c3_amended "OPEN" 50 ⟨3, "SUBMITTED", some 1⟩ "BLUR"
      (by decide) (by decide)
    simpa using h⟩

/-- C4 counterexample: `print-screen` normalizes to `PRINT_SCREEN`, which
the claim's allow-list contains — but the code's `PENALTY_TYPES` holds
`PRINTSCREEN` (no separator), so the report does not consume a life. -/
theorem c4_counterexample :
    normalizeAntifraudType "print-screen" = "PRINT_SCREEN" ∧
      "PRINT_SCREEN" ∈ specAllowList ∧
      penalizes "print-screen" = false ∧
      "PRINT_SCREEN" ∉ PENALTY_TYPES := by
  refine ⟨by decide, by decide, by decide, by decide⟩

/-- C4 as amended: the antifraud handler always appends the normalized tag
to the event history, and consumes a life (clamped at `maxLives`) exactly
when the normalized tag is in `PENALTY_TYPES`, whose print-screen entry is
the separator-free `PRINTSCREEN`; all other tags leave `livesUsed`
unchanged. -/
theorem c4_amended (exam : Exam) (now : ℤ) (st : AttemptState) (ty : String) :
    (antifraudStep exam now st ty).1.events =
        st.events ++ [⟨"ANTIFRAUD", normalizeAntifraudType ty⟩] ∧
      (penalizes ty = true →
        (antifraudStep exam now st ty).1.livesUsed =
          min exam.maxLives (st.livesUsed + 1)) ∧
      (penalizes ty = false →
        (antifraudStep exam now st ty).1.livesUsed = st.livesUsed) ∧
      penalizes ty =
        (normalizeAntifraudType ty ∈
          ["BLUR", "VISIBILITY_HIDDEN", "COPY", "CUT", "PASTE", "PRINT",
           "PRINTSCREEN", "FULLSCREEN_EXIT"] : Bool) := by
  refine ⟨?_, ?_, ?_, rfl⟩
  · simp [antifraudStep]
  · intro hp; simp [antifraudStep, hp]
  · intro hp; simp [antifraudStep, hp]

/-- Witness for C4 as amended: a penalizing tag (`copy!` normalizes to
`COPY`) and a non-penalizing one (`print screen`). -/
theorem c4_amended_witness :
    (penalizes "copy!" = true ∧
      (antifraudStep ⟨"E", some 3, none, none, none, none, none, none⟩ 5
          ⟨"in_progress", some 0, none, 0, 0, none, []⟩ "copy!").1.livesUsed =
        min (Exam.maxLives ⟨"E", some 3, none, none, none, none, none, none⟩)
          (0 + 1)) ∧
      (penalizes "print screen" = false ∧
        (antifraudStep ⟨"E", some 3, none, none, none, none, none, none⟩ 5
            ⟨"in_progress", some 0, none, 0, 0, none, []⟩
            "print screen").1.livesUsed = 0) :=
  ⟨⟨by decide,
    (c4_amended ⟨"E", some 3, none, none, none, none, none, none⟩ 5
        ⟨"in_progress", some 0, none, 0, 0, none, []⟩ "copy!").2.1 (by decide)⟩,
   ⟨by decide,
    (c4_amended ⟨"E", some 3, none, none, none, none, none, none⟩ 5
        ⟨"in_progress", some 0, none, 0, 0, none, []⟩ "print screen").2.2.1
      (by decide)⟩⟩

/-- C5 counterexample: on an in-progress attempt one life short of the
limit, a `BLUR` report exhausts the lives. The code closes the attempt with
a bare row update: status becomes `finished` (not `submitted`, the status
the submission path writes) and the score stays null — while the claim says
the submission finalization path runs, leaving the auto-graded sum
(here 0) as the score. -/
theorem c5_counterexample :
    (antifraudStep ⟨"E", some 3, none, none, some "auto", none, none, none⟩ 500
        ⟨"in_progress", some 0, none, 2, 0, none, []⟩ "BLUR").1.livesUsed = 3 ∧
      (antifraudStep ⟨"E", some 3, none, none, some "auto", none, none, none⟩ 500
        ⟨"in_progress", some 0, none, 2, 0, none, []⟩ "BLUR").1.status =
        "finished" ∧
      (antifraudStep ⟨"E", some 3, none, none, some "auto", none, none, none⟩ 500
        ⟨"in_progress", some 0, none, 2, 0, none, []⟩ "BLUR").1.endAt =
        some 500 ∧
      (antifraudStep ⟨"E", some 3, none, none, some "auto", none, none, none⟩ 500
        ⟨"in_progress", some 0, none, 2, 0, none, []⟩ "BLUR").1.score = none ∧
      (antifraudStep ⟨"E", some 3, none, none, some "auto", none, none, none⟩ 500
        ⟨"in_progress", some 0, none, 2, 0, none, []⟩ "BLUR").1.score ≠
        some 0 ∧
      (antifraudStep ⟨"E", some 3, none, none, some "auto", none, none, none⟩ 500
        ⟨"in_progress", some 0, none, 2, 0, none, []⟩ "BLUR").1.status ≠
        "submitted" := by
  refine ⟨by decide, by decide, by decide, by decide, by decide, by decide⟩

/-- C5 as amended: exhausting the lives on a not-yet-finished attempt sets
`status = "finished"` and `endAt = now` by a direct update; no grading
runs — the score is always left unchanged. -/
theorem c5_amended (exam : Exam) (now : ℤ) (st : AttemptState) (ty : String) :
    (antifraudStep exam now st ty).1.score = st.score ∧
      (antifraudStep exam now st ty).1.status =
        (if max 0 (exam.maxLives -
              (if penalizes ty then min exam.maxLives (st.livesUsed + 1)
               else st.livesUsed)) = 0 ∧ st.status ≠ "finished"
         then "finished" else st.status) ∧
      (antifraudStep exam now st ty).1.endAt =
        (if max 0 (exam.maxLives -
              (if penalizes ty then min exam.maxLives (st.livesUsed + 1)
               else st.livesUsed)) = 0 ∧ st.status ≠ "finished"
         then some now else st.endAt) := by
  refine ⟨by simp [antifraudStep], ?_, ?_⟩ <;>
    · simp only [antifraudStep]
      split <;> split <;> simp_all


/-- Boolean equality on strings agrees with decidable equality. -/
lemma string_beq_eq_decide (a b : String) : (a == b) = decide (a = b) := by
  by_cases h : a = b <;> simp [h]

/-- C6: fill-in-blank auto-grading awards `points × (number of index-wise
trimmed case-insensitive matches) / (number of expected blanks)`, and 0
when there are no expected blanks; in particular, submitting
`["gato","loro"]` against expected `["gato","perro"]` worth 10 points
stores and reports score 5 (the attempt's score, the stored answer row and
the response all carry 5, with `maxScore` 10). -/
theorem c6_fill_in_blank_scoring :
    (∀ (pts : ℚ) (E G : List String),
      fibScore pts E G =
        if E.length = 0 then 0
        else pts *
          (((List.range E.length).filter
              (fun i => normBlank (G.getD i "") = normBlank (E.getD i ""))).length : ℚ) /
            (E.length : ℚ)) ∧
      submitHandler ⟨"E", some 3, none, none, some "auto", none, none, none⟩
          [⟨"q1", "FILL_IN", some (.objAnswers [.str "gato", .str "perro"]),
            some 10⟩]
          ⟨"in_progress", some 0, none, 0, 0, none, []⟩ []
          [⟨"q1", some (.arr [.str "gato", .str "loro"])⟩] 99 =
        .ok (⟨"submitted", some 0, some 99, 0, 0, some 5, []⟩,
             [⟨"q1", some (.str "[\"gato\",\"loro\"]"), some 5⟩],
             ⟨"auto", some 5, some 10⟩) := by
  constructor
  · intro pts E G
    have hfun : (fun i => normBlank (G.getD i "") == normBlank (E.getD i "")) =
        (fun i => decide (normBlank (G.getD i "") = normBlank (E.getD i ""))) := by
      funext i
      exact string_beq_eq_decide _ _
    rw [fibScore, fibMatchCount, List.countP_eq_length_filter, hfun]
  · have hc : fibMatchCount ["gato", "perro"] ["gato", "loro"] = (1 : ℕ) := by
      decide
    simp +decide [submitHandler, submitLoop, upsertScoredRow,
      serializeAnswerContent, autoKindScore, fibScore, fibExpected, fibGiven,
      valOrNull, elemToStr, Question.pts, normalizeQuestionKind,
      jsonStringifyStrArr, jsonStringify, escapeJson, jsToString, hc]
    norm_num


/-- C7 counterexample: `submit` has no terminal guard and unconditionally
writes `endAt = now`; a second submission overwrites the `endAt` set by the
first one (here `some 100` becomes `some 200`), so `endAt` is not
immutable once set. -/
theorem c7_counterexample :
    (submitHandler ⟨"E", some 3, none, none, some "auto", none, none, none⟩ []
        ⟨"submitted", some 0, some 100, 0, 0, some 0, []⟩ []
        [⟨"zzz", none⟩] 200).toOption.map (fun r => r.1.endAt) =
      some (some 200) ∧
      (⟨"submitted", some 0, some 100, 0, 0, some 0, []⟩ : AttemptState).endAt =
        some 100 ∧
      some (200 : ℤ) ≠ some (100 : ℤ) :=
  ⟨rfl, rfl, by decide⟩

/-- C7 as amended: the expiry check never touches an attempt whose `endAt`
is already set, and the two manual-grading endpoints never modify `endAt`
(so finalizing the grade of a never-submitted attempt yields a terminal
`graded` status with `endAt` still null); but `submit` always writes
`endAt = now`, overwriting any prior value. -/
theorem c7_amended :
    (∀ (exam : Exam) (qs : List Question) (rows : List AnswerRow) (now : ℤ)
        (st : AttemptState), st.endAt.isSome →
      finalizeAttemptIfExpired exam qs rows now st = (st, rows)) ∧
      (∀ (st : AttemptState) (rows : List AnswerRow)
          (pq : Option (List GradeItem)) (fin : Bool),
        (gradingPatchHandler st rows pq fin).1.endAt = st.endAt) ∧
      (∀ (st : AttemptState) (rows : List AnswerRow)
          (pq : Option (List GradeItem)) (ov : Option (Option String)),
        (teacherFinalizeHandler st rows pq ov).1.endAt = st.endAt) ∧
      (∀ (exam : Exam) (qs : List Question) (st : AttemptState)
          (rows : List AnswerRow) (pay : List SubmittedAnswer) (now : ℤ)
          (out : AttemptState × List AnswerRow × SubmitResponse),
        submitHandler exam qs st rows pay now = .ok out →
        out.1.endAt = some now) := by
  refine ⟨?_, ?_, ?_, ?_⟩
  · intro exam qs rows now st h
    simp [finalizeAttemptIfExpired, h]
  · intro st rows pq fin
    rcases pq with _ | items
    · rfl
    · simp only [gradingPatchHandler]
      rcases h : gradeLoop rows items with ⟨rows', e⟩
      rcases e with _ | err <;> simp
  · intro st rows pq ov
    rcases pq with _ | items
    · rfl
    · simp only [teacherFinalizeHandler]
      rcases h : gradeLoop rows items with ⟨rows', e⟩
      rcases e with _ | err
      · rcases ov with _ | raw
        · simp
        · by_cases hl : 2000 < (match raw with | none => "" | some s => s).length <;>
            simp [hl]
      · simp
  · intro exam qs st rows pay now out h
    simp only [submitHandler] at h
    split at h
    · exact absurd h (by simp)
    · rw [Except.ok.injEq] at h
      rw [← h]

/-- Witness for C7 as amended at concrete inputs. -/
theorem c7_amended_witness :
    finalizeAttemptIfExpired ⟨"E", some 3, none, none, none, none, none, none⟩
        [] [] 999 ⟨"submitted", some 0, some 7, 0, 0, none, []⟩ =
      (⟨"submitted", some 0, some 7, 0, 0, none, []⟩, []) ∧
      (gradingPatchHandler ⟨"in_progress", some 0, none, 0, 0, none, []⟩ []
          (some []) true).1.endAt =
        (⟨"in_progress", some 0, none, 0, 0, none, []⟩ : AttemptState).endAt ∧
      (teacherFinalizeHandler ⟨"in_progress", some 0, none, 0, 0, none, []⟩ []
          (some []) none).1.endAt =
        (⟨"in_progress", some 0, none, 0, 0, none, []⟩ : AttemptState).endAt ∧
      ((⟨"submitted", some 5, some 42, 0, 0, some 0, []⟩,
        [], ⟨"auto", some 0, some 0⟩) :
          AttemptState × List AnswerRow × SubmitResponse).1.endAt = some 42 :=
  ⟨c7_amended.1 ⟨"E", some 3, none, none, none, none, none, none⟩ [] [] 999
      ⟨"submitted", some 0, some 7, 0, 0, none, []⟩ (by decide),
   c7_amended.2.1 ⟨"in_progress", some 0, none, 0, 0, none, []⟩ [] (some []) true,
   c7_amended.2.2.1 ⟨"in_progress", some 0, none, 0, 0, none, []⟩ [] (some []) none,
   c7_amended.2.2.2 ⟨"E", some 3, none, none, some "auto", none, none, none⟩ []
      ⟨"in_progress", some 5, none, 0, 0, none, []⟩ [] [⟨"zzz", none⟩] 42
      (⟨"submitted", some 5, some 42, 0, 0, some 0, []⟩, [],
       ⟨"auto", some 0, some 0⟩) rfl⟩


/-- C8 counterexample: a per-question score of −5 is not rejected — the
grading call succeeds (no error), and the score is stored clamped to 0. -/
theorem c8_counterexample :
    (gradingPatchHandler ⟨"submitted", some 0, some 10, 0, 0, none, []⟩ []
        (some [⟨"q1", some (.num (-5)), none⟩]) false).2.2 = none ∧
      (gradingPatchHandler ⟨"submitted", some 0, some 10, 0, 0, none, []⟩ []
        (some [⟨"q1", some (.num (-5)), none⟩]) false).2.1 =
        [⟨"q1", none, some 0⟩] ∧
      (gradingPatchHandler ⟨"submitted", some 0, some 10, 0, 0, none, []⟩ []
        (some [⟨"q1", some (.num (-5)), none⟩]) false).1.score = some 0 := by
  have hmax : max (0 : ℚ) (-5) = 0 := by norm_num
  refine ⟨?_, ?_, ?_⟩ <;>
    simp [gradingPatchHandler, gradeLoop, scoreOfItem, clampScore,
      jsToNumber, gradeUpsertRow, jsTrim, totalScoreOf, hmax]

/-- A score accepted by `clampScore` is never negative. -/
lemma clampScore_nonneg (o : Option ℚ) (n : ℚ)
    (h : clampScore o = .ok (some n)) : 0 ≤ n := by
  rcases o with _ | m
  · simp [clampScore] at h
  · simp only [clampScore, Except.ok.injEq, Option.some.injEq] at h
    rw [← h]
    exact le_max_left 0 m

/-- A score accepted by `scoreOfItem` is never negative. -/
lemma scoreOfItem_nonneg (v : Option JsVal) (n : ℚ)
    (h : scoreOfItem v = .ok (some n)) : 0 ≤ n := by
  rcases v with _ | val
  · simp [scoreOfItem] at h
  · cases val with
    | null => simp [scoreOfItem] at h
    | str s => exact clampScore_nonneg (jsToNumber (.str s)) n h
    | num m => exact clampScore_nonneg (jsToNumber (.num m)) n h
    | arr xs => exact clampScore_nonneg (jsToNumber (.arr xs)) n h
    | objAnswers xs => exact clampScore_nonneg (jsToNumber (.objAnswers xs)) n h
    | objValue v tf => exact clampScore_nonneg (jsToNumber (.objValue v tf)) n h

/-- Rows whose scores are all non-negative stay so under one grading
upsert with a non-negative (or absent) score. -/
lemma gradeUpsertRow_nonneg (qid : String) (sc : Option ℚ) (fb : Option String)
    (hsc : ∀ s, sc = some s → 0 ≤ s) :
    ∀ rows : List AnswerRow,
      (∀ r ∈ rows, ∀ s, r.score = some s → 0 ≤ s) →
      ∀ r ∈ gradeUpsertRow qid sc fb rows, ∀ s, r.score = some s → 0 ≤ s := by
  intro rows
  induction rows with
  | nil =>
    intro _ r hr s hs
    simp only [gradeUpsertRow, List.mem_singleton] at hr
    subst hr
    exact hsc s hs
  | cons r0 rest ih =>
    intro hall r hr s hs
    simp only [gradeUpsertRow] at hr
    by_cases hq : r0.questionId = qid
    · rw [if_pos hq] at hr
      rcases List.mem_cons.mp hr with h | h
      · subst h
        simp only at hs
        rcases hc : sc with _ | s0
        · rw [hc] at hs
          exact hall r0 (List.mem_cons_self r0 rest) s hs
        · rw [hc] at hs
          simp only [Option.some.injEq] at hs
          rw [← hs]
          exact hsc s0 hc
      · exact hall r (List.mem_cons_of_mem r0 h) s hs
    · rw [if_neg hq] at hr
      rcases List.mem_cons.mp hr with h | h
      · subst h
        exact hall r (List.mem_cons_self r rest) s hs
      · exact ih (fun r' hr' => hall r' (List.mem_cons_of_mem r0 hr')) r h s hs

/-- The grading loop preserves non-negativity of all stored scores. -/
lemma gradeLoop_nonneg :
    ∀ (items : List GradeItem) (rows : List AnswerRow),
      (∀ r ∈ rows, ∀ s, r.score = some s → 0 ≤ s) →
      ∀ r ∈ (gradeLoop rows items).1, ∀ s, r.score = some s → 0 ≤ s := by
  intro items
  induction items with
  | nil => intro rows h; simpa [gradeLoop] using h
  | cons item rest ih =>
    intro rows hall
    simp only [gradeLoop]
    by_cases hq : jsTrim item.questionId = ""
    · rw [if_pos hq]
      exact ih rows hall
    · rw [if_neg hq]
      rcases hsc : scoreOfItem item.score with e | sc
      · simpa using hall
      · exact ih _ (gradeUpsertRow_nonneg _ sc item.feedback
          (fun s hs => scoreOfItem_nonneg item.score s (hs ▸ hsc)) rows hall)

/-- C8 as amended: a negative per-question score is not rejected but
clamped to 0 (`Math.max(0, ·)`); only a non-numeric score is rejected as
`SCORE_INVALID`; consequently no negative score is ever stored — grading
preserves non-negativity of every stored score. -/
theorem c8_amended :
    (∀ (v : Option JsVal) (n : ℚ), scoreOfItem v = .ok (some n) → 0 ≤ n) ∧
      (∀ q : ℚ, q < 0 → scoreOfItem (some (.num q)) = .ok (some 0)) ∧
      (∀ (st : AttemptState) (rows : List AnswerRow)
          (items : Option (List GradeItem)) (fin : Bool),
        (∀ r ∈ rows, ∀ s, r.score = some s → 0 ≤ s) →
        ∀ r ∈ (gradingPatchHandler st rows items fin).2.1, ∀ s,
          r.score = some s → 0 ≤ s) := by
  refine ⟨scoreOfItem_nonneg, ?_, ?_⟩
  · intro q hq
    have : max (0 : ℚ) q = 0 := max_eq_left hq.le
    simp [scoreOfItem, clampScore, jsToNumber, this]
  · intro st rows items fin hall
    rcases items with _ | its
    · simpa [gradingPatchHandler] using hall
    · simp only [gradingPatchHandler]
      rcases h : gradeLoop rows its with ⟨rows', e⟩
      have := gradeLoop_nonneg its rows hall
      rw [h] at this
      rcases e with _ | err <;> simpa using this

/-- Witness for C8 as amended at concrete scores. -/
theorem c8_amended_witness :
    ((0 : ℚ) ≤ 2 ∧ ((-5 : ℚ) < 0 ∧
        scoreOfItem (some (.num (-5))) = .ok (some 0))) ∧
      (∀ r ∈ (gradingPatchHandler ⟨"submitted", some 0, some 10, 0, 0, none, []⟩
          [] (some [⟨"q1", some (.num 2), none⟩]) false).2.1, ∀ s,
        r.score = some s → 0 ≤ s) := by
  refine ⟨⟨?_, by norm_num, c8_amended.2.1 (-5) (by norm_num)⟩, ?_⟩
  · refine c8_amended.1 (some (.num 2)) 2 ?_
    have : max (0 : ℚ) 2 = 2 := by norm_num
    simp [scoreOfItem, clampScore, jsToNumber, this]
  · exact c8_amended.2.2 ⟨"submitted", some 0, some 10, 0, 0, none, []⟩ []
      (some [⟨"q1", some (.num 2), none⟩]) false (by simp)


/-- The submit loop only sees the payload entries whose question id matches
a question of the exam: filtering the others out changes nothing. -/
lemma submitLoop_filter_known (auto : Bool) (qs : List Question) :
    ∀ (pay : List SubmittedAnswer) (rows : List AnswerRow),
      submitLoop auto qs rows pay =
        submitLoop auto qs rows
          (pay.filter (fun a => (qs.find? (fun q => q.id == a.questionId)).isSome)) := by
  intro pay
  induction pay with
  | nil => intro rows; rfl
  | cons a rest ih =>
    intro rows
    rcases hf : qs.find? (fun q => q.id == a.questionId) with _ | q
    · simp only [submitLoop, hf, List.filter_cons, Option.isSome_none,
        Bool.false_eq_true, if_false]
      exact ih rows
    · simp only [submitLoop, hf, List.filter_cons, Option.isSome_some, if_true]
      rw [ih]

/-- A payload consisting only of unknown question ids contributes no row,
no score and no points. -/
lemma submitLoop_all_unknown (auto : Bool) (qs : List Question) :
    ∀ (pay : List SubmittedAnswer) (rows : List AnswerRow),
      (∀ a ∈ pay, qs.find? (fun q => q.id == a.questionId) = none) →
      submitLoop auto qs rows pay = (rows, 0, 0) := by
  intro pay
  induction pay with
  | nil => intro rows _; rfl
  | cons a rest ih =>
    intro rows hall
    have ha := hall a (List.mem_cons_self a rest)
    simp only [submitLoop, ha]
    exact ih rows (fun b hb => hall b (List.mem_cons_of_mem a hb))

/-- C9: a submitted (questionId, value) pair whose question id matches no
question of the exam is silently skipped — the submit loop behaves exactly
as if those pairs were filtered out (no answer row, no score, no
`maxScore` contribution) — and a non-empty payload of only unknown ids
still finalizes the attempt: under auto grading the attempt ends
`submitted` with `endAt = now`, score 0, and no row is written. -/
theorem c9_unknown_question_ids_skipped :
    (∀ (auto : Bool) (qs : List Question) (rows : List AnswerRow)
        (pay : List SubmittedAnswer),
      submitLoop auto qs rows pay =
        submitLoop auto qs rows
          (pay.filter (fun a => (qs.find? (fun q => q.id == a.questionId)).isSome))) ∧
      (∀ (exam : Exam) (qs : List Question) (st : AttemptState)
          (rows : List AnswerRow) (pay : List SubmittedAnswer) (now : ℤ),
        pay ≠ [] →
        (∀ a ∈ pay, qs.find? (fun q => q.id == a.questionId) = none) →
        jsToLower (exam.gradingMode.getD "auto") ≠ "manual" →
        submitHandler exam qs st rows pay now =
          .ok ({ st with
                  status := "submitted"
                  endAt := some now
                  score := some 0 }, rows, ⟨"auto", some 0, some 0⟩)) := by
  constructor
  · intro auto qs rows pay
    exact submitLoop_filter_known auto qs pay rows
  · intro exam qs st rows pay now hne hall hgm
    have hempty : pay.isEmpty = false := by
      cases pay
      · exact absurd rfl hne
      · rfl
    simp only [submitHandler, hempty, Bool.false_eq_true, if_false,
      submitLoop_all_unknown _ qs pay rows hall, if_pos hgm]

/-- Witness for C9 at a payload with a single unknown question id. -/
theorem c9_unknown_question_ids_skipped_witness :
    (([(⟨"zzz", none⟩ : SubmittedAnswer)] : List SubmittedAnswer) ≠ [] ∧
      jsToLower ((Exam.gradingMode
          ⟨"E", some 3, none, none, some "auto", none, none, none⟩).getD "auto") ≠
        "manual") ∧
      submitHandler ⟨"E", some 3, none, none, some "auto", none, none, none⟩ []
          ⟨"in_progress", some 0, none, 0, 0, none, []⟩ [] [⟨"zzz", none⟩] 42 =
        .ok (⟨"submitted", some 0, some 42, 0, 0, some 0, []⟩, [],
             ⟨"auto", some 0, some 0⟩) :=
  ⟨⟨List.cons_ne_nil _ _, by decide⟩,
   c9_unknown_question_ids_skipped.2
     ⟨"E", some 3, none, none, some "auto", none, none, none⟩ []
     ⟨"in_progress", some 0, none, 0, 0, none, []⟩ [] [⟨"zzz", none⟩] 42
     (List.cons_ne_nil _ _) (by intro a ha; rfl) (by decide)⟩


/-- When every entry of `pre` is valid (non-blank id, serialized value
within bounds) and `e` is oversized with a non-blank id, the draft loop
upserts all of `pre`, then stops at `e` with `ANSWER_VALUE_TOO_LARGE` —
the earlier upserts are kept. -/
lemma draftLoop_partial_persist :
    ∀ (pre : List DraftEntry) (rows : List AnswerRow) (e : DraftEntry)
      (rest : List DraftEntry),
      (∀ d ∈ pre, jsTrim d.questionId ≠ "" ∧
        (jsonStringify (valOrNull d.value)).length ≤ 20000) →
      jsTrim e.questionId ≠ "" →
      20000 < (jsonStringify (valOrNull e.value)).length →
      draftLoop rows (pre ++ e :: rest) =
        (draftApplyAll rows pre, some "ANSWER_VALUE_TOO_LARGE") := by
  intro pre
  induction pre with
  | nil =>
    intro rows e rest _ hq hsize
    simp only [List.nil_append, draftLoop, if_neg hq, if_pos hsize,
      draftApplyAll, List.foldl_nil]
  | cons d pre' ih =>
    intro rows e rest hall hq hsize
    have hd := hall d (List.mem_cons_self d pre')
    simp only [List.cons_append, draftLoop, if_neg hd.1,
      if_neg (not_lt.mpr hd.2)]
    exact ih _ e rest (fun d' hd' => hall d' (List.mem_cons_of_mem d hd'))
      hq hsize

/-- C10: the draft autosave rejects more than 200 entries outright (no row
touched), rejects any entry whose JSON-serialized value exceeds 20000
characters — and because that check runs per entry inside the upsert loop,
a request rejected at a later entry keeps the upserts of its earlier
entries (the rejection is not atomic). -/
theorem c10_draft_size_limits :
    (∀ (st : AttemptState) (rows : List AnswerRow)
        (entries : List DraftEntry),
      st.endAt = none → st.status = "in_progress" → 200 < entries.length →
      draftHandler st rows (some entries) =
        (rows, some "ANSWERS_TOO_LARGE")) ∧
      (∀ (st : AttemptState) (rows : List AnswerRow) (pre : List DraftEntry)
          (e : DraftEntry) (rest : List DraftEntry),
        st.endAt = none → st.status = "in_progress" →
        (pre ++ e :: rest).length ≤ 200 →
        (∀ d ∈ pre, jsTrim d.questionId ≠ "" ∧
          (jsonStringify (valOrNull d.value)).length ≤ 20000) →
        jsTrim e.questionId ≠ "" →
        20000 < (jsonStringify (valOrNull e.value)).length →
        draftHandler st rows (some (pre ++ e :: rest)) =
          (draftApplyAll rows pre, some "ANSWER_VALUE_TOO_LARGE")) := by
  constructor
  · intro st rows entries h1 h2 hlen
    simp only [draftHandler, h1, h2, Option.isSome_none, Bool.false_or,
      bne_self_eq_false, Bool.false_eq_true, if_false, if_pos hlen]
  · intro st rows pre e rest h1 h2 hlen hall hq hsize
    simp only [draftHandler, h1, h2, Option.isSome_none, Bool.false_or,
      bne_self_eq_false, Bool.false_eq_true, if_false,
      if_neg (not_lt.mpr hlen)]
    exact draftLoop_partial_persist pre rows e rest hall hq hsize

/-- Escaping leaves a string of `a`s unchanged. -/
lemma escapeJson_replicate_a (n : ℕ) :
    escapeJson (String.mk (List.replicate n 'a')) =
      String.mk (List.replicate n 'a') := by
  induction n with
  | zero => rfl
  | succ m ih =>
    simp only [escapeJson, List.replicate_succ, List.foldr_cons] at ih ⊢
    rw [show escapeJsonChar 'a' = ['a'] from rfl]
    have : (List.replicate m 'a').foldr
        (fun c acc => escapeJsonChar c ++ acc) [] = List.replicate m 'a' := by
      have := congrArg String.data ih
      simpa using this
    rw [this]
    rfl

/-- A string value serializes to its quoted escaped form. -/
lemma jsonStringify_str (s : String) :
    jsonStringify (.str s) = "\"" ++ escapeJson s ++ "\"" := by
  simp [jsonStringify]

/-- The serialized size of the 20001-`a` string payload exceeds 20000. -/
lemma bigPayload_oversized :
    20000 <
      (jsonStringify (valOrNull (some (.str (String.mk
        (List.replicate 20001 'a')))))).length := by
  have h1 : jsonStringify (valOrNull (some (.str (String.mk
      (List.replicate 20001 'a'))))) =
      "\"" ++ escapeJson (String.mk (List.replicate 20001 'a')) ++ "\"" :=
    jsonStringify_str _
  rw [h1, escapeJson_replicate_a, String.length_append, String.length_append]
  have h2 : (String.mk (List.replicate 20001 'a')).length = 20001 := by
    rw [String.length]
    exact List.length_replicate _ _
  have h3 : ("\"" : String).length = 1 := rfl
  rw [h2, h3]
  norm_num

/-- Witness for C10: a 201-entry request is rejected with no upsert, and a
two-entry request whose second value is oversized persists the first
entry's answer before failing. -/
theorem c10_draft_size_limits_witness :
    (200 < (List.replicate 201 (⟨"q", some (.str "x")⟩ : DraftEntry)).length ∧
      draftHandler ⟨"in_progress", some 0, none, 0, 0, none, []⟩ []
          (some (List.replicate 201 ⟨"q", some (.str "x")⟩)) =
        ([], some "ANSWERS_TOO_LARGE")) ∧
      draftHandler ⟨"in_progress", some 0, none, 0, 0, none, []⟩ []
          (some ([⟨"q1", some (.str "ok")⟩] ++
            ⟨"q2", some (.str (String.mk (List.replicate 20001 'a')))⟩ :: [])) =
        (draftApplyAll [] [⟨"q1", some (.str "ok")⟩],
         some "ANSWER_VALUE_TOO_LARGE") := by
  constructor
  · constructor
    · rw [List.length_replicate]
      norm_num
    · exact c10_draft_size_limits.1 ⟨"in_progress", some 0, none, 0, 0, none, []⟩
        [] (List.replicate 201 ⟨"q", some (.str "x")⟩) rfl rfl
        (by rw [List.length_replicate]; norm_num)
  · refine c10_draft_size_limits.2 ⟨"in_progress", some 0, none, 0, 0, none, []⟩
      [] [⟨"q1", some (.str "ok")⟩]
      ⟨"q2", some (.str (String.mk (List.replicate 20001 'a')))⟩ [] rfl rfl
      (by rw [List.length_append]; decide) ?_ (by decide) bigPayload_oversized
    intro d hd
    rcases List.mem_singleton.mp hd with rfl
    constructor
    · decide
    · have : jsonStringify (valOrNull (some (.str "ok"))) = "\"ok\"" := by
        simp [jsonStringify, valOrNull, escapeJson, escapeJsonChar]
      rw [this]
      decide

end ExamProctor
